import Mathlib

/-!
# Verification of `paddlehub/datasets/base_nlp_dataset.py`

A shallow embedding of the NLP dataset-construction core: the aligner
`SeqLabelingDataset._reseg_token_label`, the label back-mapping loop of
`SeqLabelingDataset._convert_examples_to_records`, the classification
conversion `TextClassificationDataset._convert_examples_to_records`, the
label map built in `BaseNLPDataset.__init__`, and the `__getitem__` /
`__len__` accessors.

The tokenizer is an external capability; it is a parameter everywhere
(`tokenize : String → List String`, `encode`, `decode`), exactly as the
Python code treats `self.tokenizer` as a black box.

Python exceptions are modelled by `Option`: a function that can raise
returns `none` on the raising path.  A record dropped by the conversion
loop (`continue`) is NOT an exception: the conversion simply skips it.
-/

set_option autoImplicit false

namespace BaseNlpDataset

/-- `InputExample`: guid, text_a, optional text_b, optional label
(lines 30-58 of the source). -/
structure InputExample where
  guid : Nat
  text_a : String
  text_b : Option String := none
  label : Option String := none
deriving Repr, DecidableEq

/-- Python `s.startswith(pre)`, written on the underlying character lists so
that it evaluates inside the kernel. -/
def pyStartsWith (s pre : String) : Bool :=
  pre.data.isPrefixOf s.data

/-- Python `s[n:]` on a string: drop the first `n` characters. -/
def pyDropChars (s : String) (n : Nat) : String :=
  String.mk (s.data.drop n)

/-- Python `s.split(sep)` for a one-character separator (groups of characters
between occurrences of `c`; `"".split(sep) == [""]`). -/
def splitChars (c : Char) : List Char → List (List Char)
  | [] => [[]]
  | ch :: rest =>
    match splitChars c rest with
    | [] => [[]]
    | g :: gs => if ch = c then [] :: g :: gs else (ch :: g) :: gs

/-- Python `s.split(c)` with the one-character separator used by
`SeqLabelingDataset` (`split_char`, default `"\002"`). -/
def pySplit (s : String) (c : Char) : List String :=
  (splitChars c s.data).map String.mk

/-- Python `list.index(x)`: index of the first occurrence, `none` models the
`ValueError` raised when `x` is absent (used at lines 337 and 341). -/
def pyIndex : List String → String → Option Nat
  | [], _ => none
  | x :: xs, s => if x = s then some 0 else (pyIndex xs s).map (· + 1)

/-- The dict comprehension `{item: index for index, item in enumerate(label_list)}`
of line 112: a later duplicate key overwrites an earlier one, so a lookup
prefers the occurrence further to the right.  `i` is the index of the head. -/
def buildLabelMap : List String → Nat → String → Option Nat
  | [], _, _ => none
  | x :: xs, i, s =>
    match buildLabelMap xs (i + 1) s with
    | some j => some j
    | none => if s = x then some i else none

/-- `self.label_map` lookup (line 112); `none` models a `KeyError`. -/
def label_map (label_list : List String) : String → Option Nat :=
  buildLabelMap label_list 0

/-- The `for token, label in zip(tokens, labels)` loop body of
`_reseg_token_label` (lines 353-364): zero subunits drop the pair, one
subunit keeps the label, two or more propagate a continuation label
(`B-` becomes `I-`, anything else is reused). -/
def resegLoop (tokenize : String → List String) : List (String × String) → List String × List String
  | [] => ([], [])
  | (token, label) :: rest =>
    let sub_token := tokenize token
    if sub_token.length = 0 then resegLoop tokenize rest
    else
      let r := resegLoop tokenize rest
      if sub_token.length < 2 then (sub_token ++ r.1, label :: r.2)
      else
        let sub_label := if pyStartsWith label "B-" then "I-" ++ pyDropChars label 2 else label
        (sub_token ++ r.1, label :: (List.replicate (sub_token.length - 1) sub_label ++ r.2))

/-- The label-free loop of `_reseg_token_label` (lines 371-378): tokens whose
tokenization is empty are skipped, all other subunits are emitted in order. -/
def resegTokensOnly (tokenize : String → List String) : List String → List String
  | [] => []
  | token :: rest =>
    let sub_token := tokenize token
    if sub_token.length = 0 then resegTokensOnly tokenize rest
    else sub_token ++ resegTokensOnly tokenize rest

/-- `SeqLabelingDataset._reseg_token_label` (lines 345-379).  The Python guard
`if labels:` is truthiness: a `None` labels argument and an empty list both
take the label-free branch.  `none` models a raised `ValueError` (either the
precondition check of lines 348-350 or the defensive check of lines 366-368). -/
def reseg_token_label (tokenize : String → List String) (tokens : List String) :
    Option (List String) → Option (List String × Option (List String))
  | some labels =>
    if labels.isEmpty then some (resegTokensOnly tokenize tokens, none)
    else if tokens.length ≠ labels.length then none
    else
      let r := resegLoop tokenize (tokens.zip labels)
      if r.1.length ≠ r.2.length then none
      else some (r.1, some r.2)
  | none => some (resegTokensOnly tokenize tokens, none)

/-- The two accumulators of the labelled re-segmentation loop always end up
with the same length: each iteration adds `sub_token.length` to both sides. -/
theorem resegLoop_length (tokenize : String → List String) :
    ∀ pairs : List (String × String),
      (resegLoop tokenize pairs).1.length = (resegLoop tokenize pairs).2.length := by
  intro pairs
  induction pairs with
  | nil => rfl
  | cons p rest ih =>
    obtain ⟨token, label⟩ := p
    simp only [resegLoop]
    split
    · exact ih
    · split
      · rename_i h0 h1
        simp only [List.length_append, List.length_cons, ih]
        omega
      · rename_i h0 h1
        simp only [List.length_append, List.length_cons, List.length_replicate, ih]
        omega

/-- The label back-mapping loop of
`SeqLabelingDataset._convert_examples_to_records` (lines 332-341): walk the
decoded token stream; at a position whose token equals the aligned token at
the cursor, emit `label_list.index` of the aligned label and advance the
cursor; otherwise emit `label_list.index(no_entity_label)` without advancing.
`decoded` is `tokens_with_specical_token`, `idx` the running `tokens_index`;
`none` models a `ValueError`/`IndexError` raised inside the loop. -/
def reconstructLabels (label_list : List String) (no_entity_label : String)
    (tokens labels : List String) : List String → Nat → Option (List Nat)
  | [], _ => some []
  | token :: ds, idx =>
    if tokens.get? idx = some token then do
      let lab ← labels.get? idx
      let i ← pyIndex label_list lab
      let rest ← reconstructLabels label_list no_entity_label tokens labels ds (idx + 1)
      pure (i :: rest)
    else do
      let i ← pyIndex label_list no_entity_label
      let rest ← reconstructLabels label_list no_entity_label tokens labels ds idx
      pure (i :: rest)

/-- The value of `tokens_index` after the back-mapping loop has processed a
prefix of the decoded stream, starting from `idx` (same branch condition as
`reconstructLabels`). -/
def advCursor (tokens : List String) : List String → Nat → Nat
  | [], idx => idx
  | token :: ds, idx =>
    if tokens.get? idx = some token then advCursor tokens ds (idx + 1)
    else advCursor tokens ds idx

/-- A finished record: the tokenizer's payload (`ρ`, kept abstract, it stands
for the `input_ids`/`segment_ids` or `text`/`seq_len` fields) plus the
optional `label` field the conversion loop attaches. -/
structure BuiltRecord (ρ : Type) (β : Type) where
  base : ρ
  label : Option β
deriving Repr, DecidableEq

/-- `TextClassificationDataset._convert_examples_to_records` (lines 224-244).
`encode` is `self.tokenizer.encode(text, text_pair, max_seq_len)` with the
fixed `max_seq_len` folded in; it returns `none` where the Python record is
falsy and the example is dropped via `continue`.  The label is attached only
when `example.label` is truthy (non-`None` and non-empty); a `label_map`
miss is a `KeyError`, so the whole conversion returns `none` there. -/
def clsLabelField (lm : String → Option Nat) : Option String → Option (Option Nat)
  | some s => if s = "" then some none else (lm s).map some
  | none => some none

def convertClsExamples {ρ : Type} (encode : String → Option String → Option ρ)
    (lm : String → Option Nat) : List InputExample → Option (List (BuiltRecord ρ Nat))
  | [] => some []
  | e :: es =>
    match encode e.text_a e.text_b with
    | none => convertClsExamples encode lm es
    | some r => do
      let lab ← clsLabelField lm e.label
      let rest ← convertClsExamples encode lm es
      pure (⟨r, lab⟩ :: rest)

/-- `SeqLabelingDataset._convert_examples_to_records` (lines 306-343).
`tokenize`/`encode`/`decode` are the tokenizer capability (`decode` is
`self.tokenizer.decode(record, only_convert_to_tokens=True)`); `sc` is
`self.split_char`.  Outer `none` models a propagated exception; a falsy
encode result drops the example.  The reconstructed id list is attached only
when the aligned label stream is truthy (mirroring `if labels:` at 328). -/
def convertSeqExamples {ρ : Type} (tokenize : String → List String)
    (encode : List String → Option ρ) (decode : ρ → List String)
    (label_list : List String) (sc : Char) (no_entity_label : String) :
    List InputExample → Option (List (BuiltRecord ρ (List Nat)))
  | [] => some []
  | e :: es => do
    let labStr ← e.label
    let pr ← reseg_token_label tokenize (pySplit e.text_a sc) (some (pySplit labStr sc))
    match encode pr.1 with
    | none => convertSeqExamples tokenize encode decode label_list sc no_entity_label es
    | some r =>
      match pr.2 with
      | some ls =>
        if ls.isEmpty then do
          let rest ← convertSeqExamples tokenize encode decode label_list sc no_entity_label es
          pure (⟨r, none⟩ :: rest)
        else do
          let ids ← reconstructLabels label_list no_entity_label pr.1 ls (decode r) 0
          let rest ← convertSeqExamples tokenize encode decode label_list sc no_entity_label es
          pure (⟨r, some ids⟩ :: rest)
      | none => do
        let rest ← convertSeqExamples tokenize encode decode label_list sc no_entity_label es
        pure (⟨r, none⟩ :: rest)

/-- Python list subscription `l[i]` with an `int` index, as used by
`self.records[idx]` in `__getitem__` (lines 247 and 382): a negative index
counts from the end; `none` models the `IndexError` raised outside
`[-len(l), len(l))`. -/
def pyListGet {α : Type} (l : List α) (i : Int) : Option α :=
  let j : Int := if i < 0 then i + l.length else i
  if 0 ≤ j ∧ j < (l.length : Int) then l.get? j.toNat else none

/-- `Dataset.__getitem__` restricted to what it does with the index: fetch
`self.records[idx]` (the subsequent per-tokenizer `np.array` packaging keeps
the record's content and is abstracted away). -/
def datasetGetItem {ρ : Type} (records : List ρ) (idx : Int) : Option ρ :=
  pyListGet records idx

/-- `Dataset.__len__` (lines 259-260 and 394-395). -/
def datasetLen {ρ : Type} (records : List ρ) : Nat :=
  records.length

/-- A tiny concrete wordpiece-style tokenizer used for closed witnesses and
counterexamples: splits at an inner `#` into a head piece and a `##`-marked
tail piece, drops `unk`, and keeps any other token whole. -/
def demoTok (s : String) : List String :=
  if s = "unk" then []
  else
    match pySplit s '#' with
    | [a, b] => [a, "##" ++ b]
    | _ => [s]

/-- With token and label lists of the same length, the token side of the
labelled re-segmentation loop coincides with the label-free loop. -/
theorem resegLoop_fst (tokenize : String → List String) :
    ∀ tokens labels : List String, tokens.length = labels.length →
      (resegLoop tokenize (tokens.zip labels)).1 = resegTokensOnly tokenize tokens := by
  intro tokens
  induction tokens with
  | nil =>
    intro labels _
    simp [resegLoop, resegTokensOnly]
  | cons t ts ih =>
    intro labels h
    cases labels with
    | nil => simp at h
    | cons l ls =>
      have hlen : ts.length = ls.length := by simpa using h
      simp only [List.zip_cons_cons, resegLoop, resegTokensOnly]
      by_cases h0 : (tokenize t).length = 0
      · simp only [if_pos h0]
        exact ih ls hlen
      · by_cases h1 : (tokenize t).length < 2
        · simp only [if_neg h0, if_pos h1]
          exact congrArg (tokenize t ++ ·) (ih ls hlen)
        · simp only [if_neg h0, if_neg h1]
          exact congrArg (tokenize t ++ ·) (ih ls hlen)

/-- C2: for token/label inputs of equal length, the two output sequences of
`_reseg_token_label` have equal length, and neither the precondition
`ValueError` nor the defensive output-length `ValueError` is raised. -/
theorem c2_realign_length_invariant (tokenize : String → List String)
    (tokens labels : List String) (h : tokens.length = labels.length) :
    (resegLoop tokenize (tokens.zip labels)).1.length
      = (resegLoop tokenize (tokens.zip labels)).2.length
    ∧ reseg_token_label tokenize tokens (some labels) ≠ none := by
  refine ⟨resegLoop_length tokenize _, ?_⟩
  simp only [reseg_token_label]
  by_cases he : labels.isEmpty
  · simp [he]
  · simp [he, h, resegLoop_length tokenize (tokens.zip labels)]

/-- C2 witness: the length invariant and absence of errors at a concrete
input re-segmenting `Wash#ington` with label `B-PER`. -/
theorem c2_realign_length_invariant_witness :
    (resegLoop demoTok (["Wash#ington"].zip ["B-PER"])).1.length
      = (resegLoop demoTok (["Wash#ington"].zip ["B-PER"])).2.length
    ∧ reseg_token_label demoTok ["Wash#ington"] (some ["B-PER"]) ≠ none :=
  c2_realign_length_invariant demoTok ["Wash#ington"] ["B-PER"] (by decide)

/-- C3: a pair whose tokenization has two or more subunits emits the first
subunit with the original label and each later one with the continuation
label (`B-x` becomes `I-x`, anything else is reused); a pair with exactly one
subunit emits it with the original label unchanged. -/
theorem c3_continuation_propagation (tokenize : String → List String)
    (t lab : String) (rest : List (String × String)) :
    (2 ≤ (tokenize t).length →
      resegLoop tokenize ((t, lab) :: rest)
        = (tokenize t ++ (resegLoop tokenize rest).1,
           lab :: (List.replicate ((tokenize t).length - 1)
                     (if pyStartsWith lab "B-" then "I-" ++ pyDropChars lab 2 else lab)
                   ++ (resegLoop tokenize rest).2)))
    ∧ ((tokenize t).length = 1 →
      resegLoop tokenize ((t, lab) :: rest)
        = (tokenize t ++ (resegLoop tokenize rest).1,
           lab :: (resegLoop tokenize rest).2)) := by
  constructor
  · intro h
    simp only [resegLoop]
    rw [if_neg (by omega), if_neg (by omega)]
  · intro h
    simp only [resegLoop]
    rw [if_neg (by omega), if_pos (by omega)]

/-- C3 witness: `Washington` splitting into two pieces turns `B-PER` into
`I-PER` on the second piece, and an `O` label propagates unchanged; a
one-piece token keeps its label. -/
theorem c3_continuation_propagation_witness :
    (2 ≤ (demoTok "Wash#ington").length →
      resegLoop demoTok [("Wash#ington", "B-PER")]
        = (demoTok "Wash#ington" ++ (resegLoop demoTok []).1,
           "B-PER" :: (List.replicate ((demoTok "Wash#ington").length - 1)
                         (if pyStartsWith "B-PER" "B-" then
                            "I-" ++ pyDropChars "B-PER" 2 else "B-PER")
                       ++ (resegLoop demoTok []).2)))
    ∧ ((demoTok "Wash#ington").length = 1 →
      resegLoop demoTok [("Wash#ington", "B-PER")]
        = (demoTok "Wash#ington" ++ (resegLoop demoTok []).1,
           "B-PER" :: (resegLoop demoTok []).2)) :=
  c3_continuation_propagation demoTok "Wash#ington" "B-PER" []

/-- C5: a pair whose tokenization is empty contributes nothing in either
re-segmentation loop, and a sequence-labeling example whose re-segmented
token list the tokenizer declines to encode is skipped by the conversion,
leaving the record list exactly as without it. -/
theorem c5_drop_on_unrepresentable :
    (∀ (tokenize : String → List String) (t lab : String)
        (rest : List (String × String)), tokenize t = [] →
       resegLoop tokenize ((t, lab) :: rest) = resegLoop tokenize rest)
    ∧ (∀ (tokenize : String → List String) (t : String) (rest : List String),
        tokenize t = [] →
       resegTokensOnly tokenize (t :: rest) = resegTokensOnly tokenize rest)
    ∧ (∀ {ρ : Type} (tokenize : String → List String)
        (encode : List String → Option ρ) (decode : ρ → List String)
        (ll : List String) (sc : Char) (nel : String) (e : InputExample)
        (es : List InputExample) (labStr : String) (tks : List String)
        (lo : Option (List String)),
        e.label = some labStr →
        reseg_token_label tokenize (pySplit e.text_a sc)
          (some (pySplit labStr sc)) = some (tks, lo) →
        encode tks = none →
       convertSeqExamples tokenize encode decode ll sc nel (e :: es)
         = convertSeqExamples tokenize encode decode ll sc nel es) := by
  refine ⟨?_, ?_, ?_⟩
  · intro tokenize t lab rest h
    simp [resegLoop, h]
  · intro tokenize t rest h
    simp [resegTokensOnly, h]
  · intro ρ tokenize encode decode ll sc nel e es labStr tks lo hlab hres henc
    simp only [convertSeqExamples, hlab, Option.bind_eq_bind, Option.some_bind, hres, henc]

/-- C5 witness: with the demo tokenizer, the wholly-unrepresentable token
`unk` vanishes from both loops, and an example whose aligned tokens the
encoder declines is excluded from the record list. -/
theorem c5_drop_on_unrepresentable_witness :
    resegLoop demoTok [("unk", "O"), ("a", "O")] = resegLoop demoTok [("a", "O")]
    ∧ resegTokensOnly demoTok ["unk", "a"] = resegTokensOnly demoTok ["a"]
    ∧ convertSeqExamples demoTok (fun _ => (none : Option Nat)) (fun _ => [])
        ["O"] '#' "O" [{ guid := 0, text_a := "unk", label := some "O" }]
      = convertSeqExamples demoTok (fun _ => (none : Option Nat)) (fun _ => [])
        ["O"] '#' "O" [] :=
  ⟨c5_drop_on_unrepresentable.1 demoTok "unk" "O" [("a", "O")] (by decide),
   c5_drop_on_unrepresentable.2.1 demoTok "unk" ["a"] (by decide),
   c5_drop_on_unrepresentable.2.2 demoTok (fun _ => (none : Option Nat)) (fun _ => [])
     ["O"] '#' "O" { guid := 0, text_a := "unk", label := some "O" } [] "O" [] (some [])
     (by decide) (by decide) rfl⟩

/-- C4 counterexample: `["a"]` against a present-but-empty labels list has
mismatched lengths (1 versus 0), yet `_reseg_token_label` raises nothing: the
Python guard `if labels:` treats the empty list as absent and returns the
label-free result. -/
theorem c4_counterexample :
    reseg_token_label demoTok ["a"] (some []) = some (["a"], none)
    ∧ (["a"] : List String).length ≠ ([] : List String).length := by
  constructor
  · decide
  · decide

/-- C4 amended: when the labels argument is present and non-empty (Python
truthiness), `_reseg_token_label` raises `ValueError` exactly when the token
and label lists have different lengths; an empty labels list is treated as
absent and never errors. -/
theorem c4_amended_precondition_error (tokenize : String → List String)
    (tokens labels : List String) (h : labels ≠ []) :
    reseg_token_label tokenize tokens (some labels) = none
      ↔ tokens.length ≠ labels.length := by
  have hne : labels.isEmpty = false := by
    cases labels with
    | nil => exact absurd rfl h
    | cons a l => rfl
  simp only [reseg_token_label, hne, Bool.false_eq_true, if_false]
  by_cases hlen : tokens.length = labels.length
  · simp [hlen, resegLoop_length tokenize (tokens.zip labels)]
  · simp [hlen]

/-- C4 witness: length mismatch 2 versus 1 with non-empty labels raises the
error. -/
theorem c4_amended_precondition_error_witness :
    reseg_token_label demoTok ["a", "b"] (some ["O"]) = none :=
  (c4_amended_precondition_error demoTok ["a", "b"] ["O"] (by decide)).mpr (by decide)

/-- C10: with equally long token and label lists, the token output of
`_reseg_token_label` is the same as when it is called with no labels at all:
the label stream never influences which subtokens come out. -/
theorem c10_subtokens_independent_of_labels (tokenize : String → List String)
    (tokens labels : List String) (h : tokens.length = labels.length) :
    (reseg_token_label tokenize tokens (some labels)).map Prod.fst
      = (reseg_token_label tokenize tokens none).map Prod.fst := by
  simp only [reseg_token_label]
  by_cases he : labels.isEmpty
  · simp [he]
  · have hlen : ¬ tokens.length ≠ labels.length := by omega
    simp only [he, Bool.false_eq_true, if_false, hlen,
      resegLoop_length tokenize (tokens.zip labels), ne_eq, not_true_eq_false,
      if_neg, Option.map_some']
    simp [resegLoop_fst tokenize tokens labels h]

/-- C10 witness: the subtoken stream of a concrete labelled call equals that
of the unlabelled call. -/
theorem c10_subtokens_independent_of_labels_witness :
    (reseg_token_label demoTok ["Wash#ington", "is"] (some ["B-PER", "O"])).map Prod.fst
      = (reseg_token_label demoTok ["Wash#ington", "is"] none).map Prod.fst :=
  c10_subtokens_independent_of_labels demoTok ["Wash#ington", "is"] ["B-PER", "O"] (by decide)

/-- C6: whenever the classification conversion succeeds, the record count is
at most the example count, with equality exactly when the tokenizer encoded
every example; the retained payloads are the encoded values in input order. -/
theorem c6_dataset_count {ρ : Type} (encode : String → Option String → Option ρ)
    (lm : String → Option Nat) :
    ∀ (examples : List InputExample) (recs : List (BuiltRecord ρ Nat)),
      convertClsExamples encode lm examples = some recs →
      datasetLen recs ≤ examples.length
      ∧ (datasetLen recs = examples.length ↔
          ∀ e ∈ examples, encode e.text_a e.text_b ≠ none)
      ∧ recs.map BuiltRecord.base
          = examples.filterMap (fun e => encode e.text_a e.text_b) := by
  intro examples
  induction examples with
  | nil =>
    intro recs h
    simp only [convertClsExamples, Option.some.injEq] at h
    subst h
    simp [datasetLen]
  | cons e es ih =>
    intro recs h
    simp only [convertClsExamples] at h
    cases henc : encode e.text_a e.text_b with
    | none =>
      rw [henc] at h
      obtain ⟨h1, h2, h3⟩ := ih recs h
      refine ⟨?_, ?_, ?_⟩
      · simpa [datasetLen] using Nat.le_succ_of_le h1
      · constructor
        · intro hlen
          exfalso
          simp only [datasetLen, List.length_cons] at h1 hlen
          omega
        · intro hall
          exact absurd henc (hall e (List.mem_cons_self e es))
      · simp [List.filterMap_cons, henc, h3]
    | some r =>
      rw [henc] at h
      simp only [Option.bind_eq_bind, Option.bind_eq_some, Option.pure_def,
        Option.some.injEq] at h
      obtain ⟨lab, hlab, rest, hrest, hcons⟩ := h
      subst hcons
      obtain ⟨h1, h2, h3⟩ := ih rest hrest
      refine ⟨?_, ?_, ?_⟩
      · simpa [datasetLen] using Nat.succ_le_succ h1
      · simp only [datasetLen, List.length_cons] at h2 ⊢
        constructor
        · intro hlen e' he'
          rcases List.mem_cons.1 he' with he' | he'
          · subst he'
            simp [henc]
          · exact h2.1 (by omega) e' he'
        · intro hall
          have := h2.2 (fun e' he' => hall e' (List.mem_cons_of_mem e he'))
          omega
      · simp [List.filterMap_cons, henc, h3]

/-- Concrete material for closed witnesses: two examples, and an encoder
that declines the second one. -/
def wEx1 : InputExample := { guid := 0, text_a := "one", label := some "O" }

def wEx2 : InputExample := { guid := 1, text_a := "two", label := some "O" }

def wEncode (t : String) (_ : Option String) : Option Nat :=
  if t = "one" then some 10 else none

/-- C6 witness: two examples, one of which the encoder declines: one record,
strict inequality, payloads in order. -/
theorem c6_dataset_count_witness :
    datasetLen [({ base := 10, label := some 1 } : BuiltRecord Nat Nat)]
        ≤ [wEx1, wEx2].length
    ∧ (datasetLen [({ base := 10, label := some 1 } : BuiltRecord Nat Nat)]
        = [wEx1, wEx2].length ↔
        ∀ e ∈ [wEx1, wEx2], wEncode e.text_a e.text_b ≠ none)
    ∧ [({ base := 10, label := some 1 } : BuiltRecord Nat Nat)].map BuiltRecord.base
        = [wEx1, wEx2].filterMap (fun e => wEncode e.text_a e.text_b) :=
  c6_dataset_count wEncode (label_map ["X", "O"]) [wEx1, wEx2]
    [{ base := 10, label := some 1 }] (by decide)

/-- C9: an example whose label is the empty string gets a record with no
label attached — the label map is never consulted, so no `KeyError` can
arise even though `""` is not a key. -/
theorem c9_empty_label_treated_as_absent {ρ : Type}
    (encode : String → Option String → Option ρ) (lm : String → Option Nat)
    (e : InputExample) (es : List InputExample) (r : ρ)
    (hlab : e.label = some "") (henc : encode e.text_a e.text_b = some r) :
    convertClsExamples encode lm (e :: es)
      = (convertClsExamples encode lm es).map
          (fun rest => { base := r, label := none } :: rest) := by
  simp only [convertClsExamples, henc, hlab, clsLabelField, if_pos rfl,
    Option.bind_eq_bind, Option.some_bind]
  cases convertClsExamples encode lm es <;> rfl

/-- C9 witness: with a label map that rejects every key, the empty-label
example still converts, with no label field on its record. -/
theorem c9_empty_label_treated_as_absent_witness :
    convertClsExamples (fun _ _ => some (0 : Nat)) (fun _ => none)
        [{ guid := 0, text_a := "t", label := some "" }]
      = (convertClsExamples (fun _ _ => some (0 : Nat)) (fun _ => none) []).map
          (fun rest => { base := 0, label := none } :: rest) :=
  c9_empty_label_treated_as_absent (fun _ _ => some (0 : Nat)) (fun _ => none)
    { guid := 0, text_a := "t", label := some "" } [] 0 rfl rfl

/-- C8 counterexample: a one-record dataset returns its record at index `-1`,
an index outside `[0, length())` — Python list subscription counts negative
indices from the end instead of raising `IndexError`. -/
theorem c8_counterexample :
    datasetGetItem [(7 : Nat)] (-1) = some 7
    ∧ ¬ (0 ≤ (-1 : Int) ∧ (-1 : Int) < (datasetLen [(7 : Nat)] : Int)) := by
  decide

/-- C8 amended: `__getitem__` fails with `IndexError` exactly for indices
outside `[-length(), length())`; within that range (negative indices
included) it returns a record. -/
theorem c8_amended_index_error {ρ : Type} (records : List ρ) (i : Int) :
    datasetGetItem records i = none
      ↔ (i < -(records.length : Int) ∨ (records.length : Int) ≤ i) := by
  simp only [datasetGetItem, pyListGet]
  by_cases hneg : i < 0
  · simp only [if_pos hneg]
    split_ifs with hc
    · rw [List.get?_eq_none]
      omega
    · constructor
      · intro _
        omega
      · intro _
        rfl
  · simp only [if_neg hneg]
    split_ifs with hc
    · rw [List.get?_eq_none]
      omega
    · constructor
      · intro _
        omega
      · intro _
        rfl

/-- C8 amended witness: index 2 on a one-record dataset raises. -/
theorem c8_amended_index_error_witness :
    datasetGetItem [(7 : Nat)] 2 = none :=
  (c8_amended_index_error [(7 : Nat)] 2).mpr (by decide)

/-- C7 counterexample: with the duplicated label list `["O", "X", "O"]`, the
classification path attaches id 2 (the later occurrence, via the overwriting
`label_map` dict) but the sequence-labeling path attaches id 0 (the first
occurrence, via `label_list.index`) — the two paths disagree, so the claim
that both use the later occurrence is false. -/
theorem c7_counterexample :
    convertClsExamples (fun _ _ => some (0 : Nat)) (label_map ["O", "X", "O"])
        [{ guid := 0, text_a := "t", label := some "O" }]
      = some [{ base := 0, label := some 2 }]
    ∧ reconstructLabels ["O", "X", "O"] "O" ["w"] ["O"] ["[CLS]", "w", "[SEP]"] 0
      = some [0, 0, 0]
    ∧ (2 : Nat) ≠ 0 := by
  refine ⟨?_, ?_, ?_⟩ <;> decide

/-- A `buildLabelMap` miss means the key occurs nowhere in the list. -/
theorem buildLabelMap_eq_none (s : String) :
    ∀ (ll : List String) (b : Nat), buildLabelMap ll b s = none →
      ∀ j, ll.get? j ≠ some s := by
  intro ll
  induction ll with
  | nil =>
    intro b _ j
    simp
  | cons x xs ih =>
    intro b h j
    cases hrec : buildLabelMap xs (b + 1) s with
    | some k => simp [buildLabelMap, hrec] at h
    | none =>
      simp only [buildLabelMap, hrec] at h
      have hx : s ≠ x := by
        intro hsx
        rw [if_pos hsx] at h
        cases h
      cases j with
      | zero =>
        simp only [List.get?_cons_zero, Option.some.injEq]
        intro hxs
        exact hx (Option.some.inj hxs).symm
      | succ j' =>
        simp only [List.get?_cons_succ]
        exact ih (b + 1) hrec j'

/-- A `buildLabelMap` hit points at the last occurrence of the key: the key
sits there and nowhere later. -/
theorem buildLabelMap_last (s : String) :
    ∀ (ll : List String) (b i : Nat), buildLabelMap ll b s = some i →
      ∃ k, i = b + k ∧ ll.get? k = some s ∧ ∀ j, k < j → ll.get? j ≠ some s := by
  intro ll
  induction ll with
  | nil =>
    intro b i h
    cases h
  | cons x xs ih =>
    intro b i h
    cases hrec : buildLabelMap xs (b + 1) s with
    | some k =>
      simp only [buildLabelMap, hrec, Option.some.injEq] at h
      subst h
      obtain ⟨k', hk', hget, hafter⟩ := ih (b + 1) k hrec
      refine ⟨k' + 1, by omega, by simpa using hget, ?_⟩
      intro j hj
      cases j with
      | zero => omega
      | succ j' =>
        simp only [List.get?_cons_succ]
        exact hafter j' (by omega)
    | none =>
      simp only [buildLabelMap, hrec] at h
      by_cases hsx : s = x
      · rw [if_pos hsx] at h
        injection h with h
        subst h
        refine ⟨0, by omega, by simp [hsx], ?_⟩
        intro j hj
        cases j with
        | zero => omega
        | succ j' =>
          simp only [List.get?_cons_succ]
          exact buildLabelMap_eq_none s xs (b + 1) hrec j'
      · rw [if_neg hsx] at h
        cases h

/-- A `pyIndex` hit points at the first occurrence of the key: the key sits
there and nowhere earlier. -/
theorem pyIndex_first (s : String) :
    ∀ (ll : List String) (i : Nat), pyIndex ll s = some i →
      ll.get? i = some s ∧ ∀ j, j < i → ll.get? j ≠ some s := by
  intro ll
  induction ll with
  | nil =>
    intro i h
    cases h
  | cons x xs ih =>
    intro i h
    by_cases hx : x = s
    · simp only [pyIndex, if_pos hx, Option.some.injEq] at h
      subst h
      exact ⟨by simp [hx], by intro j hj; omega⟩
    · simp only [pyIndex, if_neg hx, Option.map_eq_some'] at h
      obtain ⟨i', hi', hsucc⟩ := h
      subst hsucc
      obtain ⟨hget, hbefore⟩ := ih i' hi'
      refine ⟨by simpa using hget, ?_⟩
      intro j hj
      cases j with
      | zero =>
        simp only [List.get?_cons_zero, ne_eq, Option.some.injEq]
        exact hx
      | succ j' =>
        simp only [List.get?_cons_succ]
        exact hbefore j' (by omega)

/-- C7 amended: the classification path's id (a `label_map` dict lookup,
line 112/242) is the index of the LAST occurrence of the label string, while
the sequence-labeling path's id (`label_list.index`, lines 337/341) is the
index of the FIRST occurrence; the two coincide only without duplicates. -/
theorem c7_amended_duplicate_label_ids (ll : List String) (s : String) (i : Nat) :
    (label_map ll s = some i →
       ll.get? i = some s ∧ ∀ j, i < j → ll.get? j ≠ some s)
    ∧ (pyIndex ll s = some i →
       ll.get? i = some s ∧ ∀ j, j < i → ll.get? j ≠ some s) := by
  constructor
  · intro h
    obtain ⟨k, hk, hget, hafter⟩ := buildLabelMap_last s ll 0 i h
    have : i = k := by omega
    subst this
    exact ⟨hget, hafter⟩
  · exact pyIndex_first s ll i

/-- C7 amended witness: in `["O", "X", "O"]` the dict lookup of `"O"` gives
the last index 2, the `list.index` lookup gives the first index 0. -/
theorem c7_amended_duplicate_label_ids_witness :
    ((["O", "X", "O"] : List String).get? 2 = some "O"
      ∧ ∀ j, 2 < j → (["O", "X", "O"] : List String).get? j ≠ some "O")
    ∧ ((["O", "X", "O"] : List String).get? 0 = some "O"
      ∧ ∀ j, j < 0 → (["O", "X", "O"] : List String).get? j ≠ some "O") :=
  ⟨(c7_amended_duplicate_label_ids ["O", "X", "O"] "O" 2).1 (by decide),
   (c7_amended_duplicate_label_ids ["O", "X", "O"] "O" 0).2 (by decide)⟩

/-- A `pyIndex` lookup of a list member succeeds. -/
theorem pyIndex_isSome (s : String) :
    ∀ ll : List String, s ∈ ll → ∃ i, pyIndex ll s = some i := by
  intro ll
  induction ll with
  | nil =>
    intro h
    cases h
  | cons x xs ih =>
    intro h
    by_cases hx : x = s
    · exact ⟨0, by simp [pyIndex, hx]⟩
    · have hmem : s ∈ xs := by
        rcases List.mem_cons.1 h with h' | h'
        · exact absurd h'.symm hx
        · exact h'
      obtain ⟨i, hi⟩ := ih hmem
      exact ⟨i + 1, by simp [pyIndex, hx, hi]⟩

/-- C1: when every aligned label (and the no-entity label) is in the label
list and the aligned label stream is at least as long as the aligned token
stream, the back-mapping loop succeeds, its output has exactly the length of
the decoded token stream, and every decoded position that does not match the
aligned token at the current cursor receives the id of `no_entity_label`;
in particular `["[CLS]", "Wash", "##ington", "[SEP]"]` against
`["Wash", "##ington"]` labelled `["B-PER", "I-PER"]` over
`["O", "B-PER", "I-PER"]` reconstructs to ids `[0, 1, 2, 0]`. -/
theorem c1_label_position_alignment :
    (∀ (ll : List String) (nel : String) (tokens labels decoded : List String) (idx : Nat),
       (∀ l ∈ labels, l ∈ ll) → nel ∈ ll → tokens.length ≤ labels.length →
       ∃ out, reconstructLabels ll nel tokens labels decoded idx = some out
         ∧ out.length = decoded.length
         ∧ ∀ i t, decoded.get? i = some t →
             tokens.get? (advCursor tokens (decoded.take i) idx) ≠ some t →
             out.get? i = pyIndex ll nel)
    ∧ reconstructLabels ["O", "B-PER", "I-PER"] "O" ["Wash", "##ington"]
        ["B-PER", "I-PER"] ["[CLS]", "Wash", "##ington", "[SEP]"] 0
      = some [0, 1, 2, 0] := by
  constructor
  · intro ll nel tokens labels decoded
    induction decoded with
    | nil =>
      intro idx hl hn hlen
      refine ⟨[], rfl, rfl, ?_⟩
      intro i t h
      simp at h
    | cons t ds ih =>
      intro idx hl hn hlen
      by_cases hc : tokens.get? idx = some t
      · have hidx : idx < tokens.length := by
          by_contra hge
          rw [List.get?_eq_none.2 (by omega)] at hc
          cases hc
        obtain ⟨lab, hlab⟩ : ∃ lab, labels.get? idx = some lab := by
          cases hgl : labels.get? idx with
          | none =>
            rw [List.get?_eq_none] at hgl
            omega
          | some lab => exact ⟨lab, rfl⟩
        obtain ⟨li, hli⟩ := pyIndex_isSome lab ll (hl lab (List.get?_mem hlab))
        obtain ⟨out, hout, hlenout, hpos⟩ := ih (idx + 1) hl hn hlen
        refine ⟨li :: out, ?_, by simp [hlenout], ?_⟩
        · simp only [reconstructLabels, if_pos hc, hlab, hli, hout,
            Option.bind_eq_bind, Option.some_bind]
          rfl
        · intro i t' hget hnot
          cases i with
          | zero =>
            simp only [List.take_zero, advCursor] at hnot
            simp only [List.get?_cons_zero, Option.some.injEq] at hget
            subst hget
            exact absurd hc hnot
          | succ i' =>
            simp only [List.take_succ_cons, advCursor, if_pos hc] at hnot
            simp only [List.get?_cons_succ] at hget ⊢
            exact hpos i' t' hget hnot
      · obtain ⟨ni, hni⟩ := pyIndex_isSome nel ll hn
        obtain ⟨out, hout, hlenout, hpos⟩ := ih idx hl hn hlen
        refine ⟨ni :: out, ?_, by simp [hlenout], ?_⟩
        · simp only [reconstructLabels, if_neg hc, hni, hout,
            Option.bind_eq_bind, Option.some_bind]
          rfl
        · intro i t' hget hnot
          cases i with
          | zero => simp [hni]
          | succ i' =>
            simp only [List.take_succ_cons, advCursor, if_neg hc] at hnot
            simp only [List.get?_cons_succ] at hget ⊢
            exact hpos i' t' hget hnot
  · decide

/-- C1 witness: a concrete decoded stream with boundary markers around one
aligned token, all hypotheses discharged by computation. -/
theorem c1_label_position_alignment_witness :
    ∃ out, reconstructLabels ["O", "B-PER"] "O" ["Wash"] ["B-PER"]
        ["[CLS]", "Wash", "[SEP]"] 0 = some out
      ∧ out.length = (["[CLS]", "Wash", "[SEP]"] : List String).length
      ∧ ∀ i t, (["[CLS]", "Wash", "[SEP]"] : List String).get? i = some t →
          (["Wash"] : List String).get?
              (advCursor ["Wash"] ((["[CLS]", "Wash", "[SEP]"] : List String).take i) 0)
            ≠ some t →
          out.get? i = pyIndex ["O", "B-PER"] "O" :=
  c1_label_position_alignment.1 ["O", "B-PER"] "O" ["Wash"] ["B-PER"]
    ["[CLS]", "Wash", "[SEP]"] 0 (by decide) (by decide) (by decide)

end BaseNlpDataset
